import Mathlib

/-!
Verification of `examples/summarization/run_summarization.py`.

This file gives a shallow embedding of the parts of the script that the
specification talks about: the `BertSumOptimizer` schedule and attribute
layout, the `collate` batch assembler, the device-setup branch of `main`,
the epoch/step structure of `train`, the file-writing loop of `evaluate`,
and `decode_summary`.  Each definition is translated from the Python
source; helpers imported from `utils_summarization` (a module of this
repository that is not part of the sources given here) are modelled from
the specification and say so in their doc comment.
-/

/- ----------------------------------------------------------------- -/
/- BertSumOptimizer: attribute layout and `zero_grad` (claim C1)     -/
/- ----------------------------------------------------------------- -/

/-- The instance attributes assigned by `BertSumOptimizer.__init__`
(lines 145-167 of the source): the two Adam optimizers are stored only
inside the dictionary bound to the attribute named `optimizers`. -/
def bertSumOptimizer_instance_attributes : List String :=
  ["encoder", "decoder", "lr", "warmup_steps", "optimizers", "_step",
   "current_learning_rates"]

/-- Python attribute lookup on a `BertSumOptimizer` instance: the lookup
succeeds exactly when the name was assigned in `__init__`, and raises
`AttributeError` otherwise. -/
def bertSumOptimizer_getattr (name : String) : Except String Unit :=
  if name ∈ bertSumOptimizer_instance_attributes then Except.ok ()
  else Except.error ("AttributeError: " ++ name)

/-- Whether the accumulated gradients of the two parameter groups have
been cleared. -/
structure GradFlags where
  encoder_cleared : Bool
  decoder_cleared : Bool
deriving DecidableEq

/-- `BertSumOptimizer.zero_grad` (source lines 174-176).  The body reads
`self.optimizer_decoder` and then `self.optimizer_encoder`; each read is
an attribute lookup that must succeed before the corresponding
`zero_grad()` call can clear that group.  Returns the updated gradient
flags, or the Python exception raised by the first failing lookup. -/
def bertSumOptimizer_zero_grad (g : GradFlags) : Except String GradFlags := do
  let _ ← bertSumOptimizer_getattr "optimizer_decoder"
  let g := { g with decoder_cleared := true }
  let _ ← bertSumOptimizer_getattr "optimizer_encoder"
  let g := { g with encoder_cleared := true }
  pure g

/- ----------------------------------------------------------------- -/
/- BertSumOptimizer: learning-rate schedule (claim C2)               -/
/- ----------------------------------------------------------------- -/

/-- The two parameter groups handled by `BertSumOptimizer`. -/
inductive Stack
  | encoder
  | decoder
deriving DecidableEq

/-- The constructor arguments of `BertSumOptimizer` that the schedule
depends on: the peak learning rate and warmup length of each group. -/
structure OptimParams where
  lr : Stack → ℝ
  warmup_steps : Stack → ℕ

/-- The mutable state of a `BertSumOptimizer`: the shared step counter
`self._step` (initialised to `0`) and the dictionary
`self.current_learning_rates` (initialised empty, modelled as a map to
`Option ℝ` where `none` means the key is absent). -/
structure OptimState where
  _step : ℕ
  current_learning_rates : Stack → Option ℝ

/-- The state set up by `BertSumOptimizer.__init__`. -/
def optimInitial : OptimState :=
  { _step := 0, current_learning_rates := fun _ => none }

/-- `BertSumOptimizer._update_rate` (source lines 169-172):
`self.lr[stack] * min(self._step ** (-0.5), self._step * self.warmup_steps[stack] ** (-1.5))`.
In Python, raising the integer `0` to a negative power raises
`ZeroDivisionError`; this is modelled by returning `none` when the
counter (or the warmup count) is zero. -/
noncomputable def bertSum_update_rate (p : OptimParams) (step : ℕ)
    (stack : Stack) : Option ℝ :=
  if step = 0 ∨ p.warmup_steps stack = 0 then none
  else
    some (p.lr stack *
      min ((step : ℝ) ^ (-(1 : ℝ) / 2))
        ((step : ℝ) * (p.warmup_steps stack : ℝ) ^ (-(3 : ℝ) / 2)))

/-- `BertSumOptimizer.step` (source lines 178-185): increments the shared
counter first, then recomputes the learning rate of every group at the
new counter value and stores it in `current_learning_rates`. -/
noncomputable def bertSumOptimizer_step (p : OptimParams) (s : OptimState) :
    OptimState :=
  { _step := s._step + 1,
    current_learning_rates := fun stack => bertSum_update_rate p (s._step + 1) stack }

/-- `n` successive calls to `BertSumOptimizer.step`. -/
noncomputable def bertSumOptimizer_stepN (p : OptimParams) : ℕ → OptimState → OptimState
  | 0, s => s
  | n + 1, s => bertSumOptimizer_step p (bertSumOptimizer_stepN p n s)

/- ----------------------------------------------------------------- -/
/- Batch assembler `collate` (claims C5, C6)                         -/
/- ----------------------------------------------------------------- -/

/-- Modelled from the spec: `fit_to_block_size` from `utils_summarization`
(not among the given sources) truncates or right-pads a token sequence to
exactly `block_size` tokens using the pad token id. -/
def fit_to_block_size (sequence : List ℤ) (block_size : ℕ)
    (pad_token_id : ℤ) : List ℤ :=
  sequence.take block_size ++
    List.replicate (block_size - sequence.length) pad_token_id

/-- Modelled from the spec: `compute_token_type_ids` from
`utils_summarization` (not among the given sources) assigns each position
of each row one of two segment ids, determined by the position of the
separator token; it produces one output row per input row. -/
def compute_token_type_ids (batch : List (List ℤ)) (separator_token_id : ℤ) :
    List (List ℤ) :=
  batch.map fun row =>
    (List.range row.length).map fun i =>
      if (row.take i).contains separator_token_id then 1 else 0

/-- Modelled from the spec: `build_mask` from `utils_summarization` (not
among the given sources) is `1` where the token is not the pad token and
`0` elsewhere, row by row. -/
def build_mask (batch : List (List ℤ)) (pad_token_id : ℤ) : List (List ℤ) :=
  batch.map fun row => row.map fun t => if t = pad_token_id then 0 else 1

/-- Modelled from the spec: `build_lm_labels` from `utils_summarization`
(not among the given sources) copies the target rows and replaces every
pad position by the ignore sentinel `-1`. -/
def build_lm_labels (batch : List (List ℤ)) (pad_token_id : ℤ) :
    List (List ℤ) :=
  batch.map fun row => row.map fun t => if t = pad_token_id then -1 else t

/-- The filter predicate of `collate` (source line 82):
`not (len(x[0]) == 0 or len(x[1]) == 0)` on the raw (story, summary)
pair, i.e. keep the pair exactly when neither raw side is empty. -/
def collate_keep {α : Type} (x : List α × List α) : Bool :=
  !(x.1.length == 0 || x.2.length == 0)

/-- The tuple returned by `collate`: six tensors, each a list of rows. -/
structure Batch where
  stories : List (List ℤ)
  summaries : List (List ℤ)
  encoder_token_type_ids : List (List ℤ)
  encoder_mask : List (List ℤ)
  decoder_mask : List (List ℤ)
  lm_labels : List (List ℤ)
deriving DecidableEq

/-- `collate` (source lines 79-106).  `encode` stands for
`encode_for_summarization(story, summary, tokenizer)`, an external
tokenizer-dependent collaborator mapping one raw pair to one pair of
token-id sequences.  The body filters pairs with an empty raw side,
encodes, fits every sequence to the block size, and builds the six
tensors.  No statement of the body can raise: in particular
`torch.tensor` applied to a (possibly empty) list of equal-length rows
succeeds, so the function is total. -/
def collate {α : Type} (encode : List α × List α → List ℤ × List ℤ)
    (block_size : ℕ) (pad_token_id cls_token_id : ℤ)
    (data : List (List α × List α)) : Batch :=
  let data1 := data.filter collate_keep
  let data2 := data1.map encode
  let data3 := data2.map fun p =>
    (fit_to_block_size p.1 block_size pad_token_id,
     fit_to_block_size p.2 block_size pad_token_id)
  let stories := data3.map Prod.fst
  let summaries := data3.map Prod.snd
  { stories := stories,
    summaries := summaries,
    encoder_token_type_ids := compute_token_type_ids stories cls_token_id,
    encoder_mask := build_mask stories pad_token_id,
    decoder_mask := build_mask summaries pad_token_id,
    lm_labels := build_lm_labels summaries pad_token_id }

/- ----------------------------------------------------------------- -/
/- Device setup in `main` (claim C7)                                 -/
/- ----------------------------------------------------------------- -/

/-- A `torch.device` value: the CPU, or a CUDA device with an optional
explicit index. -/
inductive TorchDevice
  | cpu
  | cuda (index : Option ℤ)
deriving DecidableEq

/-- The fields `args.device` and `args.n_gpu` set by the device-setup
block of `main`. -/
structure DeviceConfig where
  device : TorchDevice
  n_gpu : ℕ
deriving DecidableEq

/-- The Python expression `not torch.cuda.is_available` (source line 600)
negates the truthiness of the bound-method object itself — the call
parentheses are missing — and a bound method is always truthy, so the
negation is always `false`, whatever the CUDA runtime reports. -/
def cuda_is_available_object_truthy : Bool := true

/-- The device-setup block of `main` (source lines 600-610).
`local_rank` is the `--local_rank` argument (`-1` means not distributed);
`device_count` is the value of `torch.cuda.device_count()`, which is `0`
on a machine without CUDA. -/
def setup_device (to_cpu : Bool) (local_rank : ℤ) (device_count : ℕ) :
    DeviceConfig :=
  let is_distributed : Bool := local_rank != -1
  if to_cpu || !cuda_is_available_object_truthy then
    { device := TorchDevice.cpu, n_gpu := 0 }
  else if !is_distributed then
    { device := TorchDevice.cuda none, n_gpu := device_count }
  else
    { device := TorchDevice.cuda (some local_rank), n_gpu := 1 }

/- ----------------------------------------------------------------- -/
/- `decode_summary` (claim C10)                                      -/
/- ----------------------------------------------------------------- -/

/-- Python `str.split` with the one-character separator `"."` (source
line 237): fragments between occurrences of the dot, keeping empty
fragments, so the result always has one more fragment than there are
dots. -/
def splitDot : List Char → List (List Char)
  | [] => [[]]
  | c :: rest =>
    if c = '.' then [] :: splitDot rest
    else
      match splitDot rest with
      | [] => [[c]]
      | f :: fs => (c :: f) :: fs

/-- `decode_summary` (source lines 231-239).  `tokenizer_decode` stands
for `tokenizer.decode`, the external collaborator mapping a token
sequence to text (modelled as a list of characters).  The text is split
on `"."` and a `"."` is appended to every fragment. -/
def decode_summary {τ : Type} (tokenizer_decode : τ → List Char)
    (summary_tokens : τ) : List (List Char) :=
  (splitDot (tokenizer_decode summary_tokens)).map fun s => s ++ ['.']

/- ----------------------------------------------------------------- -/
/- Training loop of `train` (claims C3, C4, C9)                      -/
/- ----------------------------------------------------------------- -/

/-- The arguments of `train` that determine its control flow:
`--max_steps` (default `-1`; only positive values activate the cap),
`--num_train_epochs` and `--gradient_accumulation_steps`. -/
structure TrainArgs where
  max_steps : ℤ
  num_train_epochs : ℕ
  gradient_accumulation_steps : ℕ
deriving DecidableEq

/-- The loop state of `train`: the global step counter, the number of
`optimizer.step()` invocations performed, the running loss `tr_loss`,
and a trace recording, for every batch that begins processing, the value
of `global_step` at that moment. -/
structure TrainState where
  global_step : ℕ
  optim_steps : ℕ
  tr_loss : ℚ
  batch_log : List ℕ
deriving DecidableEq

/-- The state at `global_step = 0` / `tr_loss = 0.0` (source lines
310-311). -/
def trainInit : TrainState :=
  { global_step := 0, optim_steps := 0, tr_loss := 0, batch_log := [] }

/-- The early-stop condition of `train` (source lines 406 and 419):
`args.max_steps > 0 and global_step > args.max_steps`. -/
def stopCond (a : TrainArgs) (global_step : ℕ) : Bool :=
  decide (0 < a.max_steps) && decide (a.max_steps < (global_step : ℤ))

/-- The forward/backward part of the inner per-batch loop of `train`
(source lines 319-351).  `loss` is the (abstract) scalar loss the batch
contributes.  The batch is recorded in the trace with the value of
`global_step` at which it begins processing, and the loss (scaled by
`1/gradient_accumulation_steps` when accumulating, source lines 346-347)
is added to `tr_loss`. -/
def recordBatch (a : TrainArgs) (loss : ℚ) (s : TrainState) : TrainState :=
  { s with
    batch_log := s.batch_log ++ [s.global_step],
    tr_loss := s.tr_loss +
      (if 1 < a.gradient_accumulation_steps then
        loss / (a.gradient_accumulation_steps : ℚ)
      else loss) }

/-- The accumulation-boundary block of the inner loop (source lines
352-355): on a boundary, `optimizer.step()` runs and `global_step`
advances by one; otherwise nothing happens. -/
def maybeOptimStep (a : TrainArgs) (step : ℕ) (s : TrainState) : TrainState :=
  if (step + 1) % a.gradient_accumulation_steps = 0 then
    { s with
      global_step := s.global_step + 1,
      optim_steps := s.optim_steps + 1 }
  else s

/-- Processing of one batch: record it, then step the optimizer on an
accumulation boundary. -/
def processBatch (a : TrainArgs) (loss : ℚ) (step : ℕ) (s : TrainState) :
    TrainState :=
  maybeOptimStep a step (recordBatch a loss s)

/-- One epoch of the inner per-batch loop of `train` (source lines
319-417), over the number of remaining batches.  After each batch the
early-stop condition is tested (source line 406) and, if it holds, the
inner loop breaks (second component `true`). -/
def runInner (a : TrainArgs) (loss : ℚ) :
    ℕ → ℕ → TrainState → TrainState × Bool
  | 0, _, s => (s, false)
  | remaining + 1, step, s =>
    let s2 := processBatch a loss step s
    if stopCond a s2.global_step then (s2, true)
    else runInner a loss remaining (step + 1) s2

/-- The outer per-epoch loop of `train` (source lines 315-421): run the
inner loop over `num_batches` batches, then re-test the early-stop
condition (source line 419) and, if it holds, break out of the epoch
iteration; otherwise continue with the next epoch. -/
def runEpochs (a : TrainArgs) (loss : ℚ) (num_batches : ℕ) :
    ℕ → TrainState → TrainState
  | 0, s => s
  | epochs + 1, s =>
    let r := runInner a loss num_batches 0 s
    if stopCond a r.1.global_step then r.1
    else runEpochs a loss num_batches epochs r.1

/-- The epoch count actually iterated by `train` (source lines 267-277):
when `max_steps > 0`, `num_train_epochs` is recomputed as
`max_steps // (len(train_dataloader) // gradient_accumulation_steps + 1)`
(all quantities non-negative, so Python floor division is natural-number
division); otherwise the configured epoch count is used. -/
def effective_num_train_epochs (a : TrainArgs) (num_batches : ℕ) : ℕ :=
  if 0 < a.max_steps then
    a.max_steps.toNat / (num_batches / a.gradient_accumulation_steps + 1)
  else a.num_train_epochs

/-- The final loop state of `train`: the epoch loop run for the effective
epoch count starting from the initial state. -/
def trainFinal (a : TrainArgs) (loss : ℚ) (num_batches : ℕ) : TrainState :=
  runEpochs a loss num_batches (effective_num_train_epochs a num_batches)
    trainInit

/-- The return statement of `train` (source line 426):
`return global_step, tr_loss / global_step`.  In Python, dividing the
float `tr_loss` by the integer `0` raises `ZeroDivisionError`. -/
def trainReturn (a : TrainArgs) (loss : ℚ) (num_batches : ℕ) :
    Except String (ℕ × ℚ) :=
  let s := trainFinal a loss num_batches
  if s.global_step = 0 then Except.error "ZeroDivisionError"
  else Except.ok (s.global_step, s.tr_loss / (s.global_step : ℚ))

/-- A `DataLoader` over a dataset splits it into consecutive batches of
`batch_size` elements (last batch possibly shorter); the fuel argument
bounds the recursion and `l.length` is always enough. -/
def chunkListAux {α : Type} : ℕ → ℕ → List α → List (List α)
  | 0, _, _ => []
  | _, _, [] => []
  | fuel + 1, batch_size, x :: xs =>
    (x :: xs.take (batch_size - 1)) ::
      chunkListAux fuel batch_size (xs.drop (batch_size - 1))

/-- The list of batches a `DataLoader` with the given batch size yields
over a dataset (in order). -/
def chunkList {α : Type} (batch_size : ℕ) (l : List α) : List (List α) :=
  chunkListAux l.length batch_size l

/- ----------------------------------------------------------------- -/
/- Evaluation driver `evaluate` (claim C8)                           -/
/- ----------------------------------------------------------------- -/

/-- Newline-joining of sentences, as in `"\n".join(sentences)` (source
line 467). -/
def joinNewline (sentences : List (List Char)) : List Char :=
  List.intercalate ['\n'] sentences

/-- The inner file-writing loop of `evaluate` (source lines 463-468):
one file per summary of the batch, named `model_{idx_summary}.txt` with
the running index, containing `content` of the source row. -/
def writeBatchFiles (content : List ℤ → List Char) :
    List (List ℤ) → ℕ → List (String × List Char)
  | [], _ => []
  | row :: rows, idx =>
    ("model_" ++ toString idx ++ ".txt", content row) ::
      writeBatchFiles content rows (idx + 1)

/-- The per-batch loop of `evaluate` (source lines 455-468): each batch
is collated, its source rows are summarized and decoded, and the files
are written with the running index `idx_summary`, which persists across
batches. -/
def evalLoop {α : Type} (encode : List α × List α → List ℤ × List ℤ)
    (block_size : ℕ) (pad_token_id cls_token_id : ℤ)
    (content : List ℤ → List Char) :
    List (List (List α × List α)) → ℕ → List (String × List Char)
  | [], _ => []
  | b :: bs, idx =>
    let stories := (collate encode block_size pad_token_id cls_token_id b).stories
    writeBatchFiles content stories idx ++
      evalLoop encode block_size pad_token_id cls_token_id content bs
        (idx + stories.length)

/-- The generated file content for one source row: the row is summarized
(`summarize`, one token sequence per row of the batch), decoded by
`decode_summary`, and the sentences are joined with newlines. -/
def evalContent (summarize_row : List ℤ → List ℤ)
    (tokenizer_decode : List ℤ → List Char) (row : List ℤ) : List Char :=
  joinNewline (decode_summary tokenizer_decode (summarize_row row))

/-- `evaluate` (source lines 434-468), as the list of (file name, file
content) pairs it writes.  The dataset is iterated by a
`SequentialSampler`, i.e. batched in dataset order without shuffling;
`idx_summary` starts at `0`. -/
def evaluateFiles {α : Type} (encode : List α × List α → List ℤ × List ℤ)
    (block_size : ℕ) (pad_token_id cls_token_id : ℤ)
    (summarize_row : List ℤ → List ℤ)
    (tokenizer_decode : List ℤ → List Char) (eval_batch_size : ℕ)
    (dataset : List (List α × List α)) : List (String × List Char) :=
  evalLoop encode block_size pad_token_id cls_token_id
    (evalContent summarize_row tokenizer_decode)
    (chunkList eval_batch_size dataset) 0

/-- Concatenation of a list of lists (used to describe the evaluation
order). -/
def joinAll {α : Type} (L : List (List α)) : List α :=
  L.foldr (fun x acc => x ++ acc) []

/-- The evaluation order: the source rows of the successive collated
batches, concatenated. -/
def evalOrder {α : Type} (encode : List α × List α → List ℤ × List ℤ)
    (block_size : ℕ) (pad_token_id cls_token_id : ℤ) (eval_batch_size : ℕ)
    (dataset : List (List α × List α)) : List (List ℤ) :=
  joinAll ((chunkList eval_batch_size dataset).map fun b =>
    (collate encode block_size pad_token_id cls_token_id b).stories)


/- ----------------------------------------------------------------- -/
/- Helper lemmas about the training loop                             -/
/- ----------------------------------------------------------------- -/

theorem processBatch_batch_log (a : TrainArgs) (loss : ℚ) (step : ℕ)
    (s : TrainState) :
    (processBatch a loss step s).batch_log = s.batch_log ++ [s.global_step] := by
  unfold processBatch maybeOptimStep recordBatch
  split <;> rfl

theorem processBatch_global_step_le (a : TrainArgs) (loss : ℚ) (step : ℕ)
    (s : TrainState) :
    (processBatch a loss step s).global_step ≤ s.global_step + 1 := by
  unfold processBatch maybeOptimStep recordBatch
  split
  · exact Nat.le_refl _
  · exact Nat.le_succ _

theorem stopCond_eq_false (a : TrainArgs) (g : ℕ) (h : 0 < a.max_steps)
    (hc : stopCond a g = false) : (g : ℤ) ≤ a.max_steps := by
  simp only [stopCond, Bool.and_eq_false_iff, decide_eq_false_iff_not, not_lt] at hc
  rcases hc with hc | hc
  · omega
  · exact hc

theorem runInner_invariant (a : TrainArgs) (loss : ℚ) (h : 0 < a.max_steps) :
    ∀ (remaining step : ℕ) (s : TrainState),
      (s.global_step : ℤ) ≤ a.max_steps →
      (∀ x ∈ (runInner a loss remaining step s).1.batch_log,
        x ∈ s.batch_log ∨ (x : ℤ) ≤ a.max_steps) ∧
      ((runInner a loss remaining step s).1.global_step : ℤ) ≤ a.max_steps + 1 := by
  intro remaining
  induction remaining with
  | zero =>
    intro step s hs
    simp only [runInner]
    exact ⟨fun x hx => Or.inl hx, by omega⟩
  | succ m ih =>
    intro step s hs
    have hlog := processBatch_batch_log a loss step s
    have hle : ((processBatch a loss step s).global_step : ℤ) ≤ (s.global_step : ℤ) + 1 := by
      exact_mod_cast processBatch_global_step_le a loss step s
    by_cases hstop : stopCond a (processBatch a loss step s).global_step = true
    · have hres : (runInner a loss (m + 1) step s).1 = processBatch a loss step s := by
        simp only [runInner, hstop, if_true]
      rw [hres]
      constructor
      · intro x hx
        rw [hlog] at hx
        rcases List.mem_append.mp hx with hx | hx
        · exact Or.inl hx
        · simp only [List.mem_singleton] at hx
          subst hx
          exact Or.inr hs
      · omega
    · have hstop' : stopCond a (processBatch a loss step s).global_step = false := by
        simpa using hstop
      have hres : runInner a loss (m + 1) step s =
          runInner a loss m (step + 1) (processBatch a loss step s) := by
        simp only [runInner, hstop']
        rfl
      rw [hres]
      have hs2 : ((processBatch a loss step s).global_step : ℤ) ≤ a.max_steps :=
        stopCond_eq_false a _ h hstop'
      obtain ⟨ihl, ihg⟩ := ih (step + 1) (processBatch a loss step s) hs2
      refine ⟨fun x hx => ?_, ihg⟩
      rcases ihl x hx with hx2 | hx2
      · rw [hlog] at hx2
        rcases List.mem_append.mp hx2 with hx3 | hx3
        · exact Or.inl hx3
        · simp only [List.mem_singleton] at hx3
          subst hx3
          exact Or.inr hs
      · exact Or.inr hx2

theorem runEpochs_invariant (a : TrainArgs) (loss : ℚ) (num_batches : ℕ)
    (h : 0 < a.max_steps) :
    ∀ (epochs : ℕ) (s : TrainState), (s.global_step : ℤ) ≤ a.max_steps →
      (∀ x ∈ (runEpochs a loss num_batches epochs s).batch_log,
        x ∈ s.batch_log ∨ (x : ℤ) ≤ a.max_steps) ∧
      ((runEpochs a loss num_batches epochs s).global_step : ℤ) ≤ a.max_steps + 1 := by
  intro epochs
  induction epochs with
  | zero =>
    intro s hs
    simp only [runEpochs]
    exact ⟨fun x hx => Or.inl hx, by omega⟩
  | succ e ih =>
    intro s hs
    obtain ⟨innl, inng⟩ := runInner_invariant a loss h num_batches 0 s hs
    by_cases hstop : stopCond a (runInner a loss num_batches 0 s).1.global_step = true
    · have hres : runEpochs a loss num_batches (e + 1) s =
          (runInner a loss num_batches 0 s).1 := by
        simp only [runEpochs, hstop, if_true]
      rw [hres]
      exact ⟨innl, inng⟩
    · have hstop' : stopCond a (runInner a loss num_batches 0 s).1.global_step = false := by
        simpa using hstop
      have hres : runEpochs a loss num_batches (e + 1) s =
          runEpochs a loss num_batches e (runInner a loss num_batches 0 s).1 := by
        simp only [runEpochs, hstop']
        rfl
      rw [hres]
      have hs2 : ((runInner a loss num_batches 0 s).1.global_step : ℤ) ≤ a.max_steps :=
        stopCond_eq_false a _ h hstop'
      obtain ⟨ihl, ihg⟩ := ih (runInner a loss num_batches 0 s).1 hs2
      refine ⟨fun x hx => ?_, ihg⟩
      rcases ihl x hx with hx2 | hx2
      · exact innl x hx2
      · exact Or.inr hx2

/- ----------------------------------------------------------------- -/
/- Claim theorems                                                    -/
/- ----------------------------------------------------------------- -/

/-- Claim C1: the claim says `zero_grad()` clears the gradients of both
groups and succeeds on any constructed `BertSumOptimizer`.  The code
contradicts this: `zero_grad` reads `self.optimizer_decoder`, an
attribute `__init__` never assigns (the Adam optimizers live only in the
`self.optimizers` dictionary), so every call raises
`AttributeError: optimizer_decoder` and no gradient is cleared. -/
theorem C1_zero_grad_raises_attribute_error (g : GradFlags) :
    bertSumOptimizer_zero_grad g = Except.error "AttributeError: optimizer_decoder" := by
  rfl

theorem effective_num_train_epochs_pos (ms : ℤ) (E accum nb : ℕ)
    (h : 0 < ms) :
    effective_num_train_epochs (TrainArgs.mk ms E accum) nb =
      ms.toNat / (nb / accum + 1) := by
  unfold effective_num_train_epochs
  rw [if_pos h]

/-- Claim C3: the claim says that with `max_steps = 5`,
`gradient_accumulation_steps = 2`, a 20-example dataset and batch size 2
(hence 10 batches per epoch), `train` performs exactly 5 optimizer-step
invocations and ends with `global_step = 5`.  The code contradicts this:
`num_train_epochs` is recomputed as `5 // (10 // 2 + 1) = 0`, so the
epoch loop never runs, no optimizer step is performed and `global_step`
stays `0` — whatever epoch count was configured. -/
theorem C3_train_performs_zero_steps (epochs_configured : ℕ) (loss : ℚ) :
    (chunkList 2 (List.range 20)).length = 10 ∧
    effective_num_train_epochs (TrainArgs.mk 5 epochs_configured 2)
      ((chunkList 2 (List.range 20)).length) = 0 ∧
    (trainFinal (TrainArgs.mk 5 epochs_configured 2) loss
      ((chunkList 2 (List.range 20)).length)).optim_steps = 0 ∧
    (trainFinal (TrainArgs.mk 5 epochs_configured 2) loss
      ((chunkList 2 (List.range 20)).length)).global_step = 0 := by
  have hnb : (chunkList 2 (List.range 20)).length = 10 := rfl
  have heff : effective_num_train_epochs (TrainArgs.mk 5 epochs_configured 2) 10 = 0 := by
    rw [effective_num_train_epochs_pos 5 epochs_configured 2 10 (by decide)]
    decide
  have hfin : trainFinal (TrainArgs.mk 5 epochs_configured 2) loss
      ((chunkList 2 (List.range 20)).length) = trainInit := by
    unfold trainFinal
    rw [hnb, heff]
    rfl
  refine ⟨hnb, ?_, ?_, ?_⟩
  · rw [hnb, heff]
  · rw [hfin]
    rfl
  · rw [hfin]
    rfl

/-- Claim C4: whenever `max_steps > 0`, the early-stop checks after each
batch (inner loop) and after each epoch (outer loop) ensure that no
batch ever begins processing once the global step counter exceeds
`max_steps` — every entry of the batch trace records a counter value of
at most `max_steps` — and therefore at most the one optimizer step that
crossed the cap can have happened: the final counter is at most
`max_steps + 1`.  This holds for any number of epochs, any number of
batches per epoch, and any loss. -/
theorem C4_early_stop_bounds_processing (a : TrainArgs) (loss : ℚ)
    (num_batches epochs : ℕ) (h : 0 < a.max_steps) :
    (∀ x ∈ (runEpochs a loss num_batches epochs trainInit).batch_log,
      (x : ℤ) ≤ a.max_steps) ∧
    ((runEpochs a loss num_batches epochs trainInit).global_step : ℤ) ≤
      a.max_steps + 1 := by
  have h0 : ((trainInit.global_step : ℕ) : ℤ) ≤ a.max_steps := by
    simp only [trainInit]
    omega
  obtain ⟨hlog, hgs⟩ := runEpochs_invariant a loss num_batches h epochs trainInit h0
  refine ⟨fun x hx => ?_, hgs⟩
  rcases hlog x hx with hx2 | hx2
  · simp only [trainInit, List.not_mem_nil] at hx2
  · exact hx2

/-- Witness for C4 at a concrete configuration. -/
theorem C4_early_stop_bounds_processing_witness :
    (0 < (TrainArgs.mk 1 2 1).max_steps) ∧
    ((∀ x ∈ (runEpochs (TrainArgs.mk 1 2 1) 1 3 4 trainInit).batch_log,
        (x : ℤ) ≤ (TrainArgs.mk 1 2 1).max_steps) ∧
      ((runEpochs (TrainArgs.mk 1 2 1) 1 3 4 trainInit).global_step : ℤ) ≤
        (TrainArgs.mk 1 2 1).max_steps + 1) :=
  ⟨by decide, C4_early_stop_bounds_processing (TrainArgs.mk 1 2 1) 1 3 4 (by decide)⟩

/-- Claim C7: the claim says that with CUDA absent and `--to_cpu` unset
the code selects the CPU path.  The code contradicts this: the condition
`args.to_cpu or not torch.cuda.is_available` never fires when `to_cpu`
is false, because `not torch.cuda.is_available` negates the always-truthy
bound-method object, so the non-distributed branch is taken and
`args.device` is the CUDA device (with `n_gpu = 0` from
`torch.cuda.device_count()`). -/
theorem C7_device_setup_selects_cuda_without_gpu :
    setup_device false (-1) 0 =
      { device := TorchDevice.cuda none, n_gpu := 0 } ∧
    setup_device false (-1) 0 ≠ { device := TorchDevice.cpu, n_gpu := 0 } := by
  exact ⟨rfl, by decide⟩

/-- Claim C9: `train` can finish with `global_step = 0`, in which case
its return expression `tr_loss / global_step` raises
`ZeroDivisionError`.  Two reachable instances: (a) `max_steps = 5` with
`gradient_accumulation_steps = 2` over 10 batches per epoch (the
20-example / batch-size-2 configuration) makes the recomputed epoch
count `0`; (b) without a step cap, a single epoch of 1 batch with
`gradient_accumulation_steps = 2` never reaches an accumulation
boundary, so no optimizer step happens. -/
theorem C9_train_return_divides_by_zero (epochs_configured : ℕ) (loss : ℚ) :
    trainReturn (TrainArgs.mk 5 epochs_configured 2) loss
      ((chunkList 2 (List.range 20)).length) =
        Except.error "ZeroDivisionError" ∧
    trainReturn (TrainArgs.mk (-1) 1 2) loss 1 =
      Except.error "ZeroDivisionError" := by
  constructor
  · have hnb : (chunkList 2 (List.range 20)).length = 10 := rfl
    have heff : effective_num_train_epochs (TrainArgs.mk 5 epochs_configured 2) 10 = 0 := by
      rw [effective_num_train_epochs_pos 5 epochs_configured 2 10 (by decide)]
      decide
    have hfin : trainFinal (TrainArgs.mk 5 epochs_configured 2) loss
        ((chunkList 2 (List.range 20)).length) = trainInit := by
      unfold trainFinal
      rw [hnb, heff]
      rfl
    simp only [trainReturn, hfin]
    rfl
  · rfl

theorem bertSumOptimizer_stepN_counter (p : OptimParams) (n : ℕ)
    (s : OptimState) :
    (bertSumOptimizer_stepN p n s)._step = s._step + n := by
  induction n with
  | zero => rfl
  | succ m ih =>
    have hp : (bertSumOptimizer_step p (bertSumOptimizer_stepN p m s))._step =
        (bertSumOptimizer_stepN p m s)._step + 1 := rfl
    show (bertSumOptimizer_step p (bertSumOptimizer_stepN p m s))._step = _
    rw [hp, ih]
    omega

/-- Claim C2: after `n ≥ 1` calls to `step()` on a freshly constructed
`BertSumOptimizer` (with positive warmup counts, as in `train`, which
uses 20000 and 10000), the shared counter equals `n` and the current
learning rate of each group `g` is defined (no `ZeroDivisionError` from
a zero counter is ever hit, because the counter is incremented before
the rate is computed) and equals
`lr[g] * min(n ** -0.5, n * warmup_steps[g] ** -1.5)` exactly. -/
theorem C2_step_counter_and_schedule (p : OptimParams) (n : ℕ) (hn : 1 ≤ n)
    (hw : ∀ g, 0 < p.warmup_steps g) :
    (bertSumOptimizer_stepN p n optimInitial)._step = n ∧
    ∀ g, (bertSumOptimizer_stepN p n optimInitial).current_learning_rates g =
      some (p.lr g *
        min ((n : ℝ) ^ (-(1 : ℝ) / 2))
          ((n : ℝ) * (p.warmup_steps g : ℝ) ^ (-(3 : ℝ) / 2))) := by
  obtain ⟨m, rfl⟩ : ∃ m, n = m + 1 := ⟨n - 1, by omega⟩
  constructor
  · rw [bertSumOptimizer_stepN_counter]
    simp [optimInitial]
  · intro g
    have hc : (bertSumOptimizer_stepN p m optimInitial)._step + 1 = m + 1 := by
      rw [bertSumOptimizer_stepN_counter]
      simp [optimInitial]
    show (bertSumOptimizer_step p (bertSumOptimizer_stepN p m optimInitial)).current_learning_rates g = _
    unfold bertSumOptimizer_step
    simp only
    rw [hc]
    unfold bertSum_update_rate
    rw [if_neg]
    push_neg
    exact ⟨Nat.succ_ne_zero m, by
      have := hw g
      omega⟩

/-- A concrete parameter set for the C2 witness: unit peak rates and a
warmup of 2 steps for both groups. -/
noncomputable def optimParamsExample : OptimParams :=
  { lr := fun _ => 1, warmup_steps := fun _ => 2 }

/-- Witness for C2 after two steps on the concrete parameters. -/
theorem C2_step_counter_and_schedule_witness :
    ((1 : ℕ) ≤ 2 ∧ ∀ g, 0 < optimParamsExample.warmup_steps g) ∧
    ((bertSumOptimizer_stepN optimParamsExample 2 optimInitial)._step = 2 ∧
      ∀ g, (bertSumOptimizer_stepN optimParamsExample 2
          optimInitial).current_learning_rates g =
        some (optimParamsExample.lr g *
          min (((2 : ℕ) : ℝ) ^ (-(1 : ℝ) / 2))
            (((2 : ℕ) : ℝ) *
              (optimParamsExample.warmup_steps g : ℝ) ^ (-(3 : ℝ) / 2)))) :=
  ⟨⟨by decide, fun g => (by decide : (0 : ℕ) < 2)⟩,
    C2_step_counter_and_schedule optimParamsExample 2 (by decide)
      (fun g => (by decide : (0 : ℕ) < 2))⟩

theorem length_filter_not {α : Type} (p : α → Bool) (l : List α) :
    (l.filter fun a => !(p a)).length = l.length - (l.filter p).length := by
  induction l with
  | nil => simp
  | cons x xs ih =>
    have hle : (xs.filter p).length ≤ xs.length := List.length_filter_le p xs
    rcases Bool.eq_false_or_eq_true (p x) with h | h
    · simp [List.filter_cons, h, ih]
    · simp [List.filter_cons, h, ih]
      omega

theorem collate_filter_length {α : Type} (data : List (List α × List α)) :
    (data.filter collate_keep).length =
      data.length -
        (data.filter fun x => x.1.length == 0 || x.2.length == 0).length := by
  have h : collate_keep (α := α) =
      fun x => !((fun y : List α × List α =>
        y.1.length == 0 || y.2.length == 0) x) := rfl
  rw [h, length_filter_not]

/-- The number of input pairs with an empty raw side: these are the
pairs `collate` drops. -/
def empty_pair_count {α : Type} (data : List (List α × List α)) : ℕ :=
  (data.filter fun x => x.1.length == 0 || x.2.length == 0).length

/-- Claim C6: `collate` excludes exactly the pairs with an empty side —
the code tests emptiness of the raw story/summary before encoding — so
every one of the six tensors of the assembled batch has
`input count - number of empty pairs` rows, for every input list and
every encoding collaborator. -/
theorem C6_collate_row_counts {α : Type}
    (encode : List α × List α → List ℤ × List ℤ) (block_size : ℕ)
    (pad_token_id cls_token_id : ℤ) (data : List (List α × List α)) :
    (collate encode block_size pad_token_id cls_token_id data).stories.length =
      data.length - empty_pair_count data ∧
    (collate encode block_size pad_token_id cls_token_id data).summaries.length =
      data.length - empty_pair_count data ∧
    (collate encode block_size pad_token_id cls_token_id
        data).encoder_token_type_ids.length =
      data.length - empty_pair_count data ∧
    (collate encode block_size pad_token_id cls_token_id
        data).encoder_mask.length =
      data.length - empty_pair_count data ∧
    (collate encode block_size pad_token_id cls_token_id
        data).decoder_mask.length =
      data.length - empty_pair_count data ∧
    (collate encode block_size pad_token_id cls_token_id data).lm_labels.length =
      data.length - empty_pair_count data := by
  have hlen : (data.filter collate_keep).length =
      data.length - empty_pair_count data := by
    rw [empty_pair_count]
    exact collate_filter_length data
  refine ⟨?_, ?_, ?_, ?_, ?_, ?_⟩ <;>
    simp [collate, compute_token_type_ids, build_mask, build_lm_labels,
      List.length_map, hlen]

/-- Claim C5 counterexample: the claim says that when every pair is
filtered out `collate` fails with `EmptyBatchError`.  It does not: the
source of `collate` contains no raise statement and no
`EmptyBatchError` exists anywhere in the script, so on an all-empty
input the function returns a batch whose six tensors all have zero
rows. -/
theorem C5_counterexample_collate_returns_batch :
    collate (fun _ => ([], [])) 8 0 99
        [(([] : List Unit), ([] : List Unit)), ([], [])] =
      { stories := [], summaries := [], encoder_token_type_ids := [],
        encoder_mask := [], decoder_mask := [], lm_labels := [] } := by
  rfl

/-- Claim C5 amended: if every (source, summary) pair of the input list
has an empty side, `collate` returns (rather than raising anything) a
batch whose six tensors all have zero rows. -/
theorem C5_all_filtered_returns_empty_batch {α : Type}
    (encode : List α × List α → List ℤ × List ℤ) (block_size : ℕ)
    (pad_token_id cls_token_id : ℤ) (data : List (List α × List α))
    (h : ∀ x ∈ data, x.1.length = 0 ∨ x.2.length = 0) :
    collate encode block_size pad_token_id cls_token_id data =
      { stories := [], summaries := [], encoder_token_type_ids := [],
        encoder_mask := [], decoder_mask := [], lm_labels := [] } := by
  have hfilter : data.filter collate_keep = [] := by
    rw [List.filter_eq_nil_iff]
    intro x hx
    have := h x hx
    simp only [collate_keep, Bool.not_eq_true, Bool.or_eq_true, beq_iff_eq]
    rcases this with h1 | h1 <;> simp [h1]
  simp [collate, hfilter, compute_token_type_ids, build_mask, build_lm_labels]

/-- Witness for the amended C5 on a concrete all-empty input. -/
theorem C5_all_filtered_returns_empty_batch_witness :
    (∀ x ∈ [(([] : List Unit), ([] : List Unit))],
      x.1.length = 0 ∨ x.2.length = 0) ∧
    collate (fun _ => ([1], [2])) 4 0 99
        [(([] : List Unit), ([] : List Unit))] =
      { stories := [], summaries := [], encoder_token_type_ids := [],
        encoder_mask := [], decoder_mask := [], lm_labels := [] } :=
  ⟨by decide,
    C5_all_filtered_returns_empty_batch (fun _ => ([1], [2])) 4 0 99
      [(([] : List Unit), ([] : List Unit))] (by decide)⟩

theorem splitDot_ne_nil (l : List Char) : splitDot l ≠ [] := by
  cases l with
  | nil => simp [splitDot]
  | cons c rest =>
    simp only [splitDot]
    by_cases h : c = '.'
    · simp [h]
    · rw [if_neg h]
      cases hs : splitDot rest with
      | nil => simp
      | cons f fs => simp

theorem splitDot_getLast (l : List Char) (h : l.getLast? = some '.') :
    ∃ L, splitDot l = L ++ [[]] ∧ L ≠ [] := by
  induction l with
  | nil => simp at h
  | cons c rest ih =>
    by_cases hrest : rest = []
    · subst hrest
      have hc : c = '.' := by simpa [List.getLast?] using h
      subst hc
      exact ⟨[[]], rfl, by simp⟩
    · have h2 : rest.getLast? = some '.' := by
        obtain ⟨d, ds, rfl⟩ : ∃ d ds, rest = d :: ds := by
          cases rest with
          | nil => cases hrest rfl
          | cons d ds => exact ⟨d, ds, rfl⟩
        rwa [List.getLast?_cons_cons] at h
      obtain ⟨L, hL, hne⟩ := ih h2
      simp only [splitDot]
      by_cases hc : c = '.'
      · rw [if_pos hc, hL]
        exact ⟨[] :: L, rfl, by simp⟩
      · rw [if_neg hc, hL]
        cases L with
        | nil => cases hne rfl
        | cons f L2 =>
          exact ⟨(c :: f) :: L2, rfl, by simp⟩

theorem intercalate_cons_cons {α : Type} (sep x y : List α)
    (L : List (List α)) :
    List.intercalate sep (x :: y :: L) =
      x ++ sep ++ List.intercalate sep (y :: L) := by
  simp [List.intercalate, List.append_assoc]

theorem intercalate_append_last {α : Type} (sep x : List α)
    (L : List (List α)) (h : L ≠ []) :
    List.intercalate sep (L ++ [x]) =
      List.intercalate sep L ++ sep ++ x := by
  induction L with
  | nil => cases h rfl
  | cons a as ih =>
    cases as with
    | nil => simp [List.intercalate, List.append_assoc]
    | cons b bs =>
      have hstep := ih (by simp)
      have h1 : (a :: b :: bs) ++ [x] = a :: b :: (bs ++ [x]) := by simp
      rw [h1, intercalate_cons_cons, intercalate_cons_cons]
      have h2 : (b :: bs) ++ [x] = b :: (bs ++ [x]) := by simp
      rw [h2] at hstep
      rw [hstep]
      simp [List.append_assoc]

/-- Claim C10: every sentence produced by `decode_summary` ends with a
period (and is non-empty); and when the decoded text itself ends with a
period, the last sentence is exactly `"."` — the empty trailing fragment
of the split plus the appended period — so the newline-joined file
content written by `evaluate` ends with a lone-period line. -/
theorem C10_decode_summary_sentences {τ : Type}
    (tokenizer_decode : τ → List Char) (t : τ) :
    (∀ s ∈ decode_summary tokenizer_decode t,
      s ≠ [] ∧ s.getLast? = some '.') ∧
    ((tokenizer_decode t).getLast? = some '.' →
      (decode_summary tokenizer_decode t).getLast? = some ['.'] ∧
      List.IsSuffix ['\n', '.']
        (joinNewline (decode_summary tokenizer_decode t))) := by
  constructor
  · intro s hs
    simp only [decode_summary, List.mem_map] at hs
    obtain ⟨u, hu, rfl⟩ := hs
    exact ⟨by simp, by simp⟩
  · intro h
    obtain ⟨L, hL, hne⟩ := splitDot_getLast _ h
    have hdec : decode_summary tokenizer_decode t =
        (L.map fun s => s ++ ['.']) ++ [['.']] := by
      unfold decode_summary
      rw [hL, List.map_append]
      rfl
    constructor
    · rw [hdec]
      simp
    · rw [hdec]
      have hmapne : (L.map fun s => s ++ ['.']) ≠ [] := by
        simpa using hne
      unfold joinNewline
      rw [intercalate_append_last _ _ _ hmapne]
      exact ⟨List.intercalate ['\n'] (L.map fun s => s ++ ['.']),
        by simp [List.append_assoc]⟩

/-- Witness for C10 on the concrete decoded text `"a."`. -/
theorem C10_decode_summary_sentences_witness :
    (((['a', '.'] : List Char) ≠ [] ∧
      (['a', '.'] : List Char).getLast? = some '.') ∧
     ((decode_summary id ['a', '.']).getLast? = some ['.'] ∧
      List.IsSuffix ['\n', '.'] (joinNewline (decode_summary id ['a', '.'])))) :=
  ⟨(C10_decode_summary_sentences id ['a', '.']).1 ['a', '.'] (by decide),
    (C10_decode_summary_sentences id ['a', '.']).2 (by decide)⟩

theorem joinAll_cons {α : Type} (x : List α) (L : List (List α)) :
    joinAll (x :: L) = x ++ joinAll L := rfl

theorem writeBatchFiles_enum (f : List ℤ → List Char) (l : List (List ℤ)) :
    ∀ n, writeBatchFiles f l n =
      (List.enumFrom n l).map fun p =>
        ("model_" ++ toString p.1 ++ ".txt", f p.2) := by
  induction l with
  | nil => intro n; rfl
  | cons x xs ih =>
    intro n
    simp only [writeBatchFiles, List.enumFrom, List.map_cons, ih]

theorem writeBatchFiles_append (f : List ℤ → List Char)
    (a b : List (List ℤ)) :
    ∀ n, writeBatchFiles f (a ++ b) n =
      writeBatchFiles f a n ++ writeBatchFiles f b (n + a.length) := by
  induction a with
  | nil => intro n; simp [writeBatchFiles]
  | cons x xs ih =>
    intro n
    simp only [List.cons_append, writeBatchFiles, List.append_eq, ih (n + 1),
      List.length_cons]
    have harith : n + 1 + xs.length = n + (xs.length + 1) := by omega
    rw [harith]

theorem evalLoop_eq {α : Type} (encode : List α × List α → List ℤ × List ℤ)
    (block_size : ℕ) (pad_token_id cls_token_id : ℤ)
    (content : List ℤ → List Char) :
    ∀ (batches : List (List (List α × List α))) (n : ℕ),
      evalLoop encode block_size pad_token_id cls_token_id content batches n =
        writeBatchFiles content
          (joinAll (batches.map fun b =>
            (collate encode block_size pad_token_id cls_token_id b).stories)) n := by
  intro batches
  induction batches with
  | nil => intro n; rfl
  | cons b bs ih =>
    intro n
    simp only [evalLoop, List.map_cons, joinAll_cons, writeBatchFiles_append,
      ih]

theorem chunkListAux_joinAll {α : Type} (batch_size : ℕ) :
    ∀ (fuel : ℕ) (l : List α), l.length ≤ fuel →
      joinAll (chunkListAux fuel batch_size l) = l := by
  intro fuel
  induction fuel with
  | zero =>
    intro l h
    have hnil : l = [] := List.length_eq_zero.mp (by omega)
    subst hnil
    rfl
  | succ n ih =>
    intro l h
    cases l with
    | nil => rfl
    | cons x xs =>
      simp only [chunkListAux, joinAll_cons]
      rw [ih (xs.drop (batch_size - 1))
        (by simp only [List.length_drop, List.length_cons] at h ⊢; omega)]
      simp

theorem chunkList_joinAll {α : Type} (batch_size : ℕ) (l : List α) :
    joinAll (chunkList batch_size l) = l :=
  chunkListAux_joinAll batch_size l.length l (Nat.le_refl _)

theorem collate_stories_eq {α : Type}
    (encode : List α × List α → List ℤ × List ℤ) (block_size : ℕ)
    (pad_token_id cls_token_id : ℤ) (data : List (List α × List α)) :
    (collate encode block_size pad_token_id cls_token_id data).stories =
      (data.filter collate_keep).map
        fun x => fit_to_block_size (encode x).1 block_size pad_token_id := by
  simp [collate, List.map_map]

theorem joinAll_map_collate_stories {α : Type}
    (encode : List α × List α → List ℤ × List ℤ) (block_size : ℕ)
    (pad_token_id cls_token_id : ℤ) :
    ∀ (batches : List (List (List α × List α))),
      joinAll (batches.map fun b =>
        (collate encode block_size pad_token_id cls_token_id b).stories) =
      ((joinAll batches).filter collate_keep).map
        (fun x => fit_to_block_size (encode x).1 block_size pad_token_id) := by
  intro batches
  induction batches with
  | nil => rfl
  | cons b bs ih =>
    simp only [List.map_cons, joinAll_cons]
    rw [collate_stories_eq, ih, List.filter_append, List.map_append]

theorem evalOrder_eq {α : Type}
    (encode : List α × List α → List ℤ × List ℤ) (block_size : ℕ)
    (pad_token_id cls_token_id : ℤ) (eval_batch_size : ℕ)
    (dataset : List (List α × List α)) :
    evalOrder encode block_size pad_token_id cls_token_id eval_batch_size
        dataset =
      (dataset.filter collate_keep).map
        (fun x => fit_to_block_size (encode x).1 block_size pad_token_id) := by
  unfold evalOrder
  rw [joinAll_map_collate_stories, chunkList_joinAll]

/-- Claim C8: `evaluate` iterates the dataset in deterministic
non-shuffled order (the evaluation order is the dataset order, batched
consecutively, restricted to the pairs `collate` keeps) and writes, for
the example at 0-based position `i` of that order, exactly one file
named `model_i.txt` containing the decoded sentences of that example joined
by newlines; the indices are consecutive from `0` across batches with
no gaps or reuse. -/
theorem C8_evaluate_writes_indexed_files {α : Type}
    (encode : List α × List α → List ℤ × List ℤ) (block_size : ℕ)
    (pad_token_id cls_token_id : ℤ) (summarize_row : List ℤ → List ℤ)
    (tokenizer_decode : List ℤ → List Char) (eval_batch_size : ℕ)
    (dataset : List (List α × List α)) :
    evaluateFiles encode block_size pad_token_id cls_token_id summarize_row
        tokenizer_decode eval_batch_size dataset =
      (List.enum (evalOrder encode block_size pad_token_id cls_token_id
          eval_batch_size dataset)).map
        (fun p => ("model_" ++ toString p.1 ++ ".txt",
          evalContent summarize_row tokenizer_decode p.2)) ∧
    evalOrder encode block_size pad_token_id cls_token_id eval_batch_size
        dataset =
      (dataset.filter collate_keep).map
        (fun x => fit_to_block_size (encode x).1 block_size pad_token_id) := by
  refine ⟨?_, evalOrder_eq encode block_size pad_token_id cls_token_id
    eval_batch_size dataset⟩
  unfold evaluateFiles
  rw [evalLoop_eq, writeBatchFiles_enum]
  rfl
